import Mathlib

/-!
Shallow embedding of `src/modules/metadata_extractor.py` (the metadata
resolution pipeline): filename-pattern inference, the sidecar (`.meta.yaml`)
layer, the LLM content-classifier layer, caller overrides, and the
serialization of the resolved record as a YAML-frontmatter preamble.

Python strings are modelled as Lean `String` at code-point level; Python
`None`-able parameters as `Option`; the file-system lookup of the sidecar
file and the network call to the classifier are modelled by passing their
outcomes as explicit parameters (`Option SidecarMap`, `Option LlmMeta`),
and `date.today().isoformat()` as an explicit `today : String` parameter.
-/

/-- Whitespace test used by Python `str.strip()` (ASCII portion of
Python's whitespace set). -/
def isPySpace (c : Char) : Bool :=
  c = ' ' || c = '\t' || c = '\n' || c = '\r' || c = '\x0b' || c = '\x0c'

/-- `str.strip()` on a list of code points: drop leading and trailing
whitespace. -/
def stripList (cs : List Char) : List Char :=
  ((cs.dropWhile isPySpace).reverse.dropWhile isPySpace).reverse

/-- Embedding of Python `s.strip()`. -/
def pyStrip (s : String) : String := ⟨stripList s.data⟩

/-- Embedding of Python slicing `s[:n]` (by code points). -/
def pyTake (s : String) (n : Nat) : String := ⟨s.data.take n⟩

/-- Embedding of Python slicing `s[n:]` (by code points). -/
def pyDrop (s : String) (n : Nat) : String := ⟨s.data.drop n⟩

/-- Worker for Python `s.split(c)` with a one-character separator: `acc`
holds the current piece reversed. -/
def splitOnCharAux (c : Char) : List Char → List Char → List (List Char)
  | [], acc => [acc.reverse]
  | x :: xs, acc =>
      if x == c then acc.reverse :: splitOnCharAux c xs []
      else splitOnCharAux c xs (x :: acc)

/-- Embedding of Python `s.split(c)` for a one-character separator (the
source only ever splits on `"/"`, `"\\"` and `","`): empty pieces are
kept, and `"".split(c) = [""]`. -/
def pySplit (c : Char) (s : String) : List String :=
  (splitOnCharAux c s.data []).map (fun l => ⟨l⟩)

/-- `filename.split("/")[-1].split("\\")[-1]`: strip any directory part. -/
def baseFilename (filename : String) : String :=
  ((pySplit '/' filename).getLastD "" |> pySplit '\\').getLastD ""

/-- ASCII lower-casing of a code-point list (how `re.IGNORECASE` matching
against the all-lowercase ASCII literal patterns is modelled). -/
def lowerList (cs : List Char) : List Char := cs.map Char.toLower

/-- `re.match(pat, s, re.IGNORECASE)` for a literal pattern anchored at the
start: does `cs` start with the code points `pat`?  (First argument is the
string, second the pattern; case folding is done by the caller.) -/
def hasPrefList : List Char → List Char → Bool
  | _, [] => true
  | [], _ :: _ => false
  | c :: cs, p :: ps => p == c && hasPrefList cs ps

/-- `FILENAME_PATTERNS`: ordered pattern → (source, type) table, in the
source's (insertion-ordered dict) order. -/
def FILENAME_PATTERNS : List (String × String × String) :=
  [("meeting_", "meeting", "minutes"),
   ("interview_", "interview", "transcript"),
   ("memo_", "memo", "note"),
   ("webinar_", "webinar", "summary")]

/-- `DEFAULT_METADATA`: the (source, type) fallback pair. -/
def DEFAULT_METADATA : String × String := ("unknown", "general")

/-- The `for pattern, metadata in FILENAME_PATTERNS.items()` loop: first
pattern matching the (already lower-cased) bare filename wins. -/
def findPattern (bl : List Char) : List (String × String × String) → Option (String × String)
  | [] => none
  | (pat, s, t) :: rest =>
      if hasPrefList bl pat.data then some (s, t) else findPattern bl rest

/-- `infer_metadata_from_filename`: strip the directory part, test the bare
name case-insensitively against the ordered pattern table, default to
`DEFAULT_METADATA`. -/
def infer_metadata_from_filename (filename : String) : String × String :=
  let base := baseFilename filename
  (findPattern (lowerList base.data) FILENAME_PATTERNS).getD DEFAULT_METADATA

/-- `parse_topics_string`: empty string → `[]`; otherwise split on commas,
strip each piece, keep the pieces that are non-empty after stripping. -/
def parse_topics_string (topics_str : String) : List String :=
  if topics_str = "" then []
  else ((pySplit ',' topics_str).map pyStrip).filter (fun t => t ≠ "")

/-- The `ContentMetadata` dataclass. -/
structure ContentMetadata where
  source : String
  type : String
  date : String
  original_file : String
  topics : List String := []
  summary : String := ""
deriving Repr, DecidableEq

/-- `ContentMetadata.to_yaml_frontmatter`: the preamble block.  Python list
truthiness: the `topics` line shows the bracketed comma-joined list when the
list is non-empty, else `[]`; the `summary` line is emitted only when the
summary is a non-empty string. -/
def ContentMetadata.to_yaml_frontmatter (m : ContentMetadata) : String :=
  let lines := ["---"]
  let lines := lines ++ ["source: " ++ m.source]
  let lines := lines ++ ["type: " ++ m.type]
  let lines := lines ++ ["date: " ++ m.date]
  let lines := lines ++
    (if m.topics ≠ [] then ["topics: [" ++ String.intercalate ", " m.topics ++ "]"]
     else ["topics: []"])
  let lines := lines ++ (if m.summary ≠ "" then ["summary: " ++ m.summary] else [])
  let lines := lines ++ ["original_file: " ++ m.original_file]
  let lines := lines ++ ["---"]
  let lines := lines ++ [""]
  String.intercalate "\n" lines

/-- A YAML value found under the `topics` key: a list, a string, or some
other YAML type (number, mapping, ...). -/
inductive TopicsVal where
  | list (ts : List String)
  | str (s : String)
  | other
deriving Repr, DecidableEq

/-- The sidecar `.meta.yaml` mapping, restricted to the keys the resolver
reads (`none` = key absent; unknown keys are ignored by the code). -/
structure SidecarMap where
  source? : Option String := none
  type? : Option String := none
  topics? : Option TopicsVal := none
  date? : Option String := none
  summary? : Option String := none
deriving Repr, DecidableEq

/-- `valid_sources` (from `_parse_llm_metadata_response`). -/
def valid_sources : List String := ["meeting", "interview", "memo", "webinar", "unknown"]

/-- `valid_types` (from `_parse_llm_metadata_response`). -/
def valid_types : List String := ["minutes", "transcript", "note", "summary", "general"]

/-- The dictionary `_parse_llm_metadata_response` returns: all four keys are
always present. -/
structure LlmMeta where
  source : String
  type : String
  topics : List String
  summary : String
deriving Repr, DecidableEq

/-- The outcome of `yaml.safe_load` on the cleaned classifier reply, as read
by `_parse_llm_metadata_response`.  A parse failure (`yaml.YAMLError`), a
null document, or a non-mapping document all behave as the empty mapping:
every field absent (`yaml.safe_load` itself is an external library call, so
its outcome is the model's input). -/
structure ParsedDoc where
  source? : Option String := none
  type? : Option String := none
  topics? : Option TopicsVal := none
  summary? : Option String := none
deriving Repr, DecidableEq

/-- The parse outcome that models a reply that failed to parse. -/
def ParsedDoc.empty : ParsedDoc := ⟨none, none, none, none⟩

/-- The fence-stripping prelude of `_parse_llm_metadata_response` (lines
357-364): strip, drop a leading ```` ```yaml ```` or ```` ``` ```` marker,
drop a trailing ```` ``` ```` marker, strip again. -/
def stripFences (response : String) : String :=
  let cleaned := pyStrip response
  let cleaned :=
    if hasPrefList cleaned.data "```yaml".data then pyDrop cleaned 7
    else if hasPrefList cleaned.data "```".data then pyDrop cleaned 3
    else cleaned
  let cleaned :=
    if hasPrefList cleaned.data.reverse "```".data.reverse then
      pyTake cleaned (cleaned.length - 3)
    else cleaned
  pyStrip cleaned

/-- The validation half of `_parse_llm_metadata_response`, applied to the
`yaml.safe_load` outcome: default the four keys, force `source`/`type` into
their enumerated sets, normalize `topics` (list entries are kept when truthy
then stripped; a string is parsed as a comma-delimited list; anything else
yields `[]`), truncate `summary` to 47 code points plus `"..."` when longer
than 50. -/
def parse_llm_metadata_response (parsed : ParsedDoc) : LlmMeta :=
  let src0 := parsed.source?.getD "unknown"
  let ty0 := parsed.type?.getD "general"
  let sm0 := parsed.summary?.getD ""
  let src := if src0 ∈ valid_sources then src0 else "unknown"
  let ty := if ty0 ∈ valid_types then ty0 else "general"
  let tps :=
    match parsed.topics? with
    | some (TopicsVal.list ts) => (ts.filter (fun t => t ≠ "")).map pyStrip
    | some (TopicsVal.str s) => parse_topics_string s
    | _ => []
  let sm := if sm0.length > 50 then pyTake sm0 47 ++ "..." else sm0
  { source := src, type := ty, topics := tps, summary := sm }

/-- Python truthiness of an `Optional[str]`: `None` and `""` are falsy. -/
def optStrTruthy : Option String → Bool
  | none => false
  | some s => !(s == "")

/-- The caller-supplied arguments of `extract_metadata` (its Python
signature, minus the externally-supplied outcomes). -/
structure ExtractArgs where
  filename : String
  source_override : Option String := none
  type_override : Option String := none
  topics : Option (List String) := none
  date_override : Option String := none
  content : Option String := none
  use_llm : Bool := true
  summary_override : Option String := none
deriving Repr, DecidableEq

/-- `x if x else base` for an `Optional[str]` argument. -/
def orBaseStr (ov : Option String) (base : String) : String :=
  match ov with
  | some s => if s = "" then base else s
  | none => base

/-- `x if x else base` for an `Optional[list]` argument (`[]` is falsy). -/
def orBaseList (ov : Option (List String)) (base : List String) : List String :=
  match ov with
  | some ts => if ts = [] then base else ts
  | none => base

/-- The running (source, type, topics, date, summary) quintuple of
`extract_metadata`'s `base_*` locals. -/
structure MergeState where
  source : String
  type : String
  topics : List String
  date : String
  summary : String
deriving Repr, DecidableEq

/-- `extract_metadata`.  `yamlMetadata` is the outcome of
`load_metadata_from_yaml` (`none` = sidecar absent / unparseable / null);
`llmOutcome` is what `generate_metadata_with_llm content` would produce if
invoked (`none` = the call raises; `some m` = it returns `m`, a mapping that
always carries all four keys); `today` is `date.today().isoformat()`.

The Python guard `if yaml_metadata:` around the sidecar block only wraps
per-key `if "k" in yaml_metadata:` statements, so it is behaviorally
equivalent to applying the key-wise overwrites whenever the sidecar mapping
is present (an empty mapping makes every key-wise overwrite a no-op). -/
def extract_metadata (a : ExtractArgs) (yamlMetadata : Option SidecarMap)
    (llmOutcome : Option LlmMeta) (today : String) : ContentMetadata :=
  let inferred := infer_metadata_from_filename a.filename
  let st0 : MergeState :=
    { source := inferred.1, type := inferred.2, topics := [],
      date := today, summary := "" }
  let st1 :=
    if yamlMetadata.isNone && optStrTruthy a.content && a.use_llm then
      match llmOutcome with
      | some m =>
          { source := m.source, type := m.type, topics := m.topics,
            date := st0.date, summary := m.summary }
      | none => st0
    else st0
  let st2 :=
    match yamlMetadata with
    | none => st1
    | some m =>
        { source := m.source?.getD st1.source
          type := m.type?.getD st1.type
          topics :=
            match m.topics? with
            | some (TopicsVal.list ts) => ts
            | some (TopicsVal.str s) => parse_topics_string s
            | _ => st1.topics
          date := m.date?.getD st1.date
          summary := m.summary?.getD st1.summary }
  { source := orBaseStr a.source_override st2.source
    type := orBaseStr a.type_override st2.type
    date := orBaseStr a.date_override st2.date
    original_file := baseFilename a.filename
    topics := orBaseList a.topics st2.topics
    summary := orBaseStr a.summary_override st2.summary }

/-! ## Helper lemmas -/

/-- A prefix match pins down the first character: matching a pattern that
starts with `p` excludes every pattern starting with a different `q`. -/
theorem hasPrefList_ne_head {cs : List Char} {p q : Char} {ps qs : List Char}
    (hne : q ≠ p) (h : hasPrefList cs (p :: ps) = true) :
    hasPrefList cs (q :: qs) = false := by
  match cs with
  | [] => simp [hasPrefList] at h
  | c :: cs' =>
    simp only [hasPrefList, Bool.and_eq_true, beq_iff_eq] at h
    obtain ⟨rfl, -⟩ := h
    simp [hasPrefList, beq_eq_false_iff_ne.mpr hne]

/-- `memo_` and `meeting_` prefixes are mutually exclusive (they differ at
the third character). -/
theorem hasPrefList_memo_not_meeting {cs : List Char}
    (h : hasPrefList cs "memo_".data = true) :
    hasPrefList cs "meeting_".data = false := by
  have hm : "memo_".data = ['m', 'e', 'm', 'o', '_'] := rfl
  have hg : "meeting_".data = ['m', 'e', 'e', 't', 'i', 'n', 'g', '_'] := rfl
  rw [hm] at h; rw [hg]
  match cs with
  | [] => simp [hasPrefList] at h
  | [c0] => simp [hasPrefList] at h
  | [c0, c1] => simp [hasPrefList] at h
  | c0 :: c1 :: c2 :: rest =>
    simp only [hasPrefList, Bool.and_eq_true, beq_iff_eq] at h
    obtain ⟨rfl, rfl, rfl, -⟩ := h
    simp [hasPrefList]

/-- The head of `dropWhile p l` (when non-empty) fails `p`. -/
theorem dropWhile_head_false {p : Char → Bool} :
    ∀ {l : List Char} {h : Char} {t : List Char},
      l.dropWhile p = h :: t → p h = false := by
  intro l
  induction l with
  | nil => intro h t he; simp [List.dropWhile] at he
  | cons a l ih =>
    intro h t he
    rw [List.dropWhile_cons] at he
    by_cases ha : p a = true
    · rw [if_pos ha] at he
      exact ih he
    · rw [if_neg ha] at he
      injection he with h1 _
      subst h1
      simpa using ha

/-- A non-empty stripped string contains a non-whitespace character. -/
theorem stripList_has_solid {cs : List Char} (h : stripList cs ≠ []) :
    ∃ c ∈ stripList cs, isPySpace c = false := by
  unfold stripList at h ⊢
  set X := (cs.dropWhile isPySpace).reverse with hX
  have hne : X.dropWhile isPySpace ≠ [] := by
    intro he
    rw [he] at h
    simp at h
  obtain ⟨hd, tl, he⟩ := List.exists_cons_of_ne_nil hne
  refine ⟨hd, ?_, dropWhile_head_false he⟩
  rw [he]
  simp

/-- The (source, type) pair inferred from a filename is always one of the
five pairs of the pattern table / default. -/
theorem infer_mem_valid (fn : String) :
    (infer_metadata_from_filename fn).1 ∈ valid_sources ∧
    (infer_metadata_from_filename fn).2 ∈ valid_types := by
  by_cases h1 : hasPrefList (lowerList (baseFilename fn).data) "meeting_".data = true
  · simp [infer_metadata_from_filename, findPattern, FILENAME_PATTERNS, h1,
      valid_sources, valid_types]
  by_cases h2 : hasPrefList (lowerList (baseFilename fn).data) "interview_".data = true
  · simp [infer_metadata_from_filename, findPattern, FILENAME_PATTERNS, h1, h2,
      valid_sources, valid_types]
  by_cases h3 : hasPrefList (lowerList (baseFilename fn).data) "memo_".data = true
  · simp [infer_metadata_from_filename, findPattern, FILENAME_PATTERNS, h1, h2, h3,
      valid_sources, valid_types]
  by_cases h4 : hasPrefList (lowerList (baseFilename fn).data) "webinar_".data = true
  · simp [infer_metadata_from_filename, findPattern, FILENAME_PATTERNS, h1, h2, h3, h4,
      valid_sources, valid_types]
  · simp [infer_metadata_from_filename, findPattern, FILENAME_PATTERNS, h1, h2, h3, h4,
      DEFAULT_METADATA, valid_sources, valid_types]

/-- The classifier's validated output always carries in-set `source` and
`type`. -/
theorem parse_llm_mem_valid (p : ParsedDoc) :
    (parse_llm_metadata_response p).source ∈ valid_sources ∧
    (parse_llm_metadata_response p).type ∈ valid_types := by
  constructor
  · by_cases h : (p.source?.getD "unknown") ∈ valid_sources
    · simp [parse_llm_metadata_response, h]
    · dsimp only [parse_llm_metadata_response]
      rw [if_neg h]
      decide
  · by_cases h : (p.type?.getD "general") ∈ valid_types
    · simp [parse_llm_metadata_response, h]
    · dsimp only [parse_llm_metadata_response]
      rw [if_neg h]
      decide

/-- The code points of the `meeting_` pattern. -/
theorem meeting_data : "meeting_".data = ['m', 'e', 'e', 't', 'i', 'n', 'g', '_'] := rfl

/-- The code points of the `interview_` pattern. -/
theorem interview_data : "interview_".data = ['i', 'n', 't', 'e', 'r', 'v', 'i', 'e', 'w', '_'] := rfl

/-- The code points of the `memo_` pattern. -/
theorem memo_data : "memo_".data = ['m', 'e', 'm', 'o', '_'] := rfl

/-- The code points of the `webinar_` pattern. -/
theorem webinar_data : "webinar_".data = ['w', 'e', 'b', 'i', 'n', 'a', 'r', '_'] := rfl

/-! ## Claim theorems -/

/-- C5: the filename classifier is total and pure: for every filename, after
stripping any directory part, the bare name is tested case-insensitively
against the ordered pattern list `meeting_` → (meeting, minutes),
`interview_` → (interview, transcript), `memo_` → (memo, note),
`webinar_` → (webinar, summary); the first match wins, and every
non-matching filename yields (unknown, general). -/
theorem c5_filename_classifier (fn : String) :
    (hasPrefList (lowerList (baseFilename fn).data) "meeting_".data = true →
      infer_metadata_from_filename fn = ("meeting", "minutes")) ∧
    (hasPrefList (lowerList (baseFilename fn).data) "interview_".data = true →
      infer_metadata_from_filename fn = ("interview", "transcript")) ∧
    (hasPrefList (lowerList (baseFilename fn).data) "memo_".data = true →
      infer_metadata_from_filename fn = ("memo", "note")) ∧
    (hasPrefList (lowerList (baseFilename fn).data) "webinar_".data = true →
      infer_metadata_from_filename fn = ("webinar", "summary")) ∧
    (hasPrefList (lowerList (baseFilename fn).data) "meeting_".data = false →
     hasPrefList (lowerList (baseFilename fn).data) "interview_".data = false →
     hasPrefList (lowerList (baseFilename fn).data) "memo_".data = false →
     hasPrefList (lowerList (baseFilename fn).data) "webinar_".data = false →
      infer_metadata_from_filename fn = ("unknown", "general")) := by
  refine ⟨fun h1 => ?_, fun h2 => ?_, fun h3 => ?_, fun h4 => ?_,
    fun h1 h2 h3 h4 => ?_⟩
  · simp [infer_metadata_from_filename, findPattern, FILENAME_PATTERNS, h1]
  · have e1 : hasPrefList (lowerList (baseFilename fn).data) "meeting_".data = false := by
      have h2' := h2
      rw [interview_data] at h2'
      rw [meeting_data]
      exact hasPrefList_ne_head (by decide) h2'
    simp [infer_metadata_from_filename, findPattern, FILENAME_PATTERNS, e1, h2]
  · have e1 := hasPrefList_memo_not_meeting h3
    have e2 : hasPrefList (lowerList (baseFilename fn).data) "interview_".data = false := by
      have h3' := h3
      rw [memo_data] at h3'
      rw [interview_data]
      exact hasPrefList_ne_head (by decide) h3'
    simp [infer_metadata_from_filename, findPattern, FILENAME_PATTERNS, e1, e2, h3]
  · have h4' := h4
    rw [webinar_data] at h4'
    have e1 : hasPrefList (lowerList (baseFilename fn).data) "meeting_".data = false := by
      rw [meeting_data]; exact hasPrefList_ne_head (by decide) h4'
    have e2 : hasPrefList (lowerList (baseFilename fn).data) "interview_".data = false := by
      rw [interview_data]; exact hasPrefList_ne_head (by decide) h4'
    have e3 : hasPrefList (lowerList (baseFilename fn).data) "memo_".data = false := by
      rw [memo_data]; exact hasPrefList_ne_head (by decide) h4'
    simp [infer_metadata_from_filename, findPattern, FILENAME_PATTERNS, e1, e2, e3, h4]
  · simp [infer_metadata_from_filename, findPattern, FILENAME_PATTERNS,
      DEFAULT_METADATA, h1, h2, h3, h4]

/-- C5 witness: concrete filenames exercising a case-insensitive match
under a directory, a later pattern, and the no-match default. -/
theorem c5_filename_classifier_witness :
    infer_metadata_from_filename "dir/MEETING_notes.txt" = ("meeting", "minutes") ∧
    infer_metadata_from_filename "x/y/webinar_2.md" = ("webinar", "summary") ∧
    infer_metadata_from_filename "plain.txt" = ("unknown", "general") :=
  ⟨(c5_filename_classifier "dir/MEETING_notes.txt").1 (by decide),
   (c5_filename_classifier "x/y/webinar_2.md").2.2.2.1 (by decide),
   (c5_filename_classifier "plain.txt").2.2.2.2 (by decide) (by decide) (by decide)
     (by decide)⟩

/-- C8: parsing a comma-delimited topics string trims every entry and drops
the empty/whitespace-only ones: `"SAP, BTP ,Cloud"` parses to
`["SAP", "BTP", "Cloud"]`, `""` parses to `[]`, and for every input string
no element of the result is empty or whitespace-only. -/
theorem c8_topics_parsing (s : String) :
    parse_topics_string "SAP, BTP ,Cloud" = ["SAP", "BTP", "Cloud"] ∧
    parse_topics_string "" = [] ∧
    (∀ t ∈ parse_topics_string s, t ≠ "" ∧ ∃ c ∈ t.data, isPySpace c = false) := by
  refine ⟨by decide, by decide, fun t ht => ?_⟩
  unfold parse_topics_string at ht
  by_cases hs : s = ""
  · rw [if_pos hs] at ht
    simp at ht
  · rw [if_neg hs] at ht
    rw [List.mem_filter] at ht
    obtain ⟨hmem, hne⟩ := ht
    have hne' : t ≠ "" := by simpa using hne
    rw [List.mem_map] at hmem
    obtain ⟨x, -, hx⟩ := hmem
    have hdata : t.data = stripList x.data := by rw [← hx]; rfl
    have hnil : stripList x.data ≠ [] := by
      intro h0
      apply hne'
      apply String.ext
      rw [hdata, h0]
    obtain ⟨c, hc, hc2⟩ := stripList_has_solid hnil
    refine ⟨hne', c, ?_, hc2⟩
    rw [hdata]
    exact hc

/-- C8 witness: the guarantee instantiated on the documented example. -/
theorem c8_topics_parsing_witness :
    "SAP" ∈ parse_topics_string "SAP, BTP ,Cloud" ∧
    ("SAP" ≠ "" ∧ ∃ c ∈ "SAP".data, isPySpace c = false) :=
  ⟨by decide, (c8_topics_parsing "SAP, BTP ,Cloud").2.2 "SAP" (by decide)⟩

/-- C6: a classifier-produced summary longer than 50 code points is
validated to its first 47 code points followed by the 3-character ellipsis
marker, 50 code points in total. -/
theorem c6_summary_truncation (p : ParsedDoc) (s : String)
    (hs : p.summary? = some s) (hlen : 50 < s.length) :
    (parse_llm_metadata_response p).summary = pyTake s 47 ++ "..." ∧
    (parse_llm_metadata_response p).summary.length = 50 := by
  have hsum : (parse_llm_metadata_response p).summary = pyTake s 47 ++ "..." := by
    dsimp only [parse_llm_metadata_response]
    rw [hs]
    exact if_pos hlen
  refine ⟨hsum, ?_⟩
  rw [hsum]
  have hmk : pyTake s 47 ++ "..." = ⟨s.data.take 47 ++ ['.', '.', '.']⟩ := rfl
  rw [hmk]
  have hlen2 : (String.mk (s.data.take 47 ++ ['.', '.', '.'])).length =
      (s.data.take 47).length + 3 := by
    rw [String.length_mk, List.length_append]
    rfl
  rw [hlen2, List.length_take]
  have hsd : s.data.length = s.length := rfl
  omega

/-- C6 witness: a 60-character summary truncates to the first 47 characters
plus the ellipsis marker. -/
theorem c6_summary_truncation_witness :
    (parse_llm_metadata_response
        ⟨none, none, none,
         some "012345678901234567890123456789012345678901234567890123456789"⟩).summary =
      "01234567890123456789012345678901234567890123456..." ∧
    (parse_llm_metadata_response
        ⟨none, none, none,
         some "012345678901234567890123456789012345678901234567890123456789"⟩).summary.length = 50 := by
  have h := c6_summary_truncation
    ⟨none, none, none,
     some "012345678901234567890123456789012345678901234567890123456789"⟩
    "012345678901234567890123456789012345678901234567890123456789" rfl (by decide)
  exact ⟨h.1.trans (by decide), h.2⟩

/-- C9: the preamble block has the fixed key order source, type, date,
topics (bracketed comma-joined list, `[]` when empty), summary (omitted
entirely when empty), original_file, between delimiter lines and with a
trailing blank line; topics `["A", "B"]` render as `topics: [A, B]` and
empty topics as `topics: []`. -/
theorem c9_preamble_serialization (m : ContentMetadata) :
    m.to_yaml_frontmatter = String.intercalate "\n"
      (["---", "source: " ++ m.source, "type: " ++ m.type, "date: " ++ m.date] ++
       [if m.topics = [] then "topics: []"
        else "topics: [" ++ String.intercalate ", " m.topics ++ "]"] ++
       (if m.summary = "" then [] else ["summary: " ++ m.summary]) ++
       ["original_file: " ++ m.original_file, "---", ""]) ∧
    "topics: [A, B]" ∈ pySplit '\n' (ContentMetadata.to_yaml_frontmatter
        ⟨"meeting", "minutes", "2025-01-08", "f.txt", ["A", "B"], ""⟩) ∧
    "topics: []" ∈ pySplit '\n' (ContentMetadata.to_yaml_frontmatter
        ⟨"meeting", "minutes", "2025-01-08", "f.txt", [], ""⟩) := by
  refine ⟨?_, by decide, by decide⟩
  by_cases h1 : m.topics = [] <;> by_cases h2 : m.summary = "" <;>
    simp [ContentMetadata.to_yaml_frontmatter, h1, h2]

/-- A falsy (`None` or empty) override argument leaves the base value. -/
theorem orBaseStr_falsy {ov : Option String} {b : String}
    (h : optStrTruthy ov = false) : orBaseStr ov b = b := by
  cases ov with
  | none => rfl
  | some s =>
    simp [optStrTruthy] at h
    simp [orBaseStr, h]

/-- Characterization of the resolved `date` field. -/
theorem extract_date_eq (a : ExtractArgs) (yaml : Option SidecarMap)
    (llm : Option LlmMeta) (today : String) :
    (extract_metadata a yaml llm today).date =
      orBaseStr a.date_override
        (match yaml with
         | some m => m.date?.getD today
         | none => today) := by
  rcases yaml with _ | m <;> rcases llm with _ | mm <;>
    by_cases hg : optStrTruthy a.content = true <;>
    by_cases hu : a.use_llm = true <;>
    simp [extract_metadata, hg, hu]

/-- Characterization of the resolved `source` field. -/
theorem extract_source_eq (a : ExtractArgs) (yaml : Option SidecarMap)
    (llm : Option LlmMeta) (today : String) :
    (extract_metadata a yaml llm today).source =
      orBaseStr a.source_override
        (match yaml with
         | some m => m.source?.getD (infer_metadata_from_filename a.filename).1
         | none =>
             if optStrTruthy a.content && a.use_llm then
               match llm with
               | some mm => mm.source
               | none => (infer_metadata_from_filename a.filename).1
             else (infer_metadata_from_filename a.filename).1) := by
  rcases yaml with _ | m <;> rcases llm with _ | mm <;>
    by_cases hg : optStrTruthy a.content = true <;>
    by_cases hu : a.use_llm = true <;>
    simp [extract_metadata, hg, hu]

/-- Characterization of the resolved `type` field. -/
theorem extract_type_eq (a : ExtractArgs) (yaml : Option SidecarMap)
    (llm : Option LlmMeta) (today : String) :
    (extract_metadata a yaml llm today).type =
      orBaseStr a.type_override
        (match yaml with
         | some m => m.type?.getD (infer_metadata_from_filename a.filename).2
         | none =>
             if optStrTruthy a.content && a.use_llm then
               match llm with
               | some mm => mm.type
               | none => (infer_metadata_from_filename a.filename).2
             else (infer_metadata_from_filename a.filename).2) := by
  rcases yaml with _ | m <;> rcases llm with _ | mm <;>
    by_cases hg : optStrTruthy a.content = true <;>
    by_cases hu : a.use_llm = true <;>
    simp [extract_metadata, hg, hu]

/-- Characterization of the resolved `topics` field. -/
theorem extract_topics_eq (a : ExtractArgs) (yaml : Option SidecarMap)
    (llm : Option LlmMeta) (today : String) :
    (extract_metadata a yaml llm today).topics =
      orBaseList a.topics
        (match yaml with
         | some m =>
             match m.topics? with
             | some (TopicsVal.list ts) => ts
             | some (TopicsVal.str s) => parse_topics_string s
             | _ => []
         | none =>
             if optStrTruthy a.content && a.use_llm then
               match llm with
               | some mm => mm.topics
               | none => []
             else []) := by
  rcases yaml with _ | m <;> rcases llm with _ | mm <;>
    by_cases hg : optStrTruthy a.content = true <;>
    by_cases hu : a.use_llm = true <;>
    simp [extract_metadata, hg, hu]

/-- Characterization of the resolved `summary` field. -/
theorem extract_summary_eq (a : ExtractArgs) (yaml : Option SidecarMap)
    (llm : Option LlmMeta) (today : String) :
    (extract_metadata a yaml llm today).summary =
      orBaseStr a.summary_override
        (match yaml with
         | some m => m.summary?.getD ""
         | none =>
             if optStrTruthy a.content && a.use_llm then
               match llm with
               | some mm => mm.summary
               | none => ""
             else "") := by
  rcases yaml with _ | m <;> rcases llm with _ | mm <;>
    by_cases hg : optStrTruthy a.content = true <;>
    by_cases hu : a.use_llm = true <;>
    simp [extract_metadata, hg, hu]

/-- C1: the resolver is a deterministic layered merge with field-level
precedence filename < classifier < sidecar < override: with a sidecar
setting only `date` and an override setting only `source`, the record keeps
the sidecar's date, the override's source, and the filename layer's type and
topics; and every non-empty caller override wins its field unconditionally. -/
theorem c1_layered_merge :
    (∀ (fn srcOv d today : String) (content : Option String) (u : Bool)
       (llm : Option LlmMeta), srcOv ≠ "" →
      extract_metadata ⟨fn, some srcOv, none, none, none, content, u, none⟩
          (some ⟨none, none, none, some d, none⟩) llm today =
        ⟨srcOv, (infer_metadata_from_filename fn).2, d, baseFilename fn, [], ""⟩) ∧
    (∀ (a : ExtractArgs) (yaml : Option SidecarMap) (llm : Option LlmMeta)
       (today : String),
      (∀ s, a.source_override = some s → s ≠ "" →
        (extract_metadata a yaml llm today).source = s) ∧
      (∀ s, a.type_override = some s → s ≠ "" →
        (extract_metadata a yaml llm today).type = s) ∧
      (∀ s, a.date_override = some s → s ≠ "" →
        (extract_metadata a yaml llm today).date = s) ∧
      (∀ s, a.summary_override = some s → s ≠ "" →
        (extract_metadata a yaml llm today).summary = s) ∧
      (∀ ts, a.topics = some ts → ts ≠ [] →
        (extract_metadata a yaml llm today).topics = ts)) := by
  constructor
  · intro fn srcOv d today content u llm hne
    rcases llm with _ | mm <;>
      by_cases hg : optStrTruthy content = true <;>
      by_cases hu : u = true <;>
      simp [extract_metadata, orBaseStr, orBaseList, hne, hg, hu]
  · intro a yaml llm today
    refine ⟨fun s hov hne => ?_, fun s hov hne => ?_, fun s hov hne => ?_,
      fun s hov hne => ?_, fun ts hov hne => ?_⟩
    · rw [extract_source_eq, hov]
      simp [orBaseStr, hne]
    · rw [extract_type_eq, hov]
      simp [orBaseStr, hne]
    · rw [extract_date_eq, hov]
      simp [orBaseStr, hne]
    · rw [extract_summary_eq, hov]
      simp [orBaseStr, hne]
    · rw [extract_topics_eq, hov]
      simp [orBaseList, hne]

/-- C1 witness: a concrete sidecar-date / override-source merge, and a
concrete override beating a sidecar value for `type`. -/
theorem c1_layered_merge_witness :
    extract_metadata ⟨"meeting_a.txt", some "webinar", none, none, none, none, true, none⟩
        (some ⟨none, none, none, some "2025-01-08", none⟩) none "2025-06-01" =
      ⟨"webinar", "minutes", "2025-01-08", "meeting_a.txt", [], ""⟩ ∧
    (extract_metadata ⟨"meeting_a.txt", none, some "transcript", none, none, none, true, none⟩
        (some ⟨none, some "note", none, none, none⟩) none "2025-06-01").type =
      "transcript" := by
  constructor
  · exact (c1_layered_merge.1 "meeting_a.txt" "webinar" "2025-01-08" "2025-06-01"
      none true none (by decide)).trans (by decide)
  · exact ((c1_layered_merge.2 _ _ _ _).2.1) "transcript" rfl (by decide)

/-- C2 counterexample: the enumerated-set invariant does not hold for every
resolver input — a sidecar `source` of `banana` and a caller `type` override
of `fancy` pass through unvalidated into the resolved record. -/
theorem c2_enum_normalization_counterexample :
    (extract_metadata ⟨"x.txt", none, none, none, none, none, true, none⟩
        (some ⟨some "banana", none, none, none, none⟩) none "2025-01-01").source =
      "banana" ∧
    (extract_metadata ⟨"x.txt", none, none, none, none, none, true, none⟩
        (some ⟨some "banana", none, none, none, none⟩) none "2025-01-01").source ∉
      valid_sources ∧
    (extract_metadata ⟨"x.txt", none, some "fancy", none, none, none, true, none⟩
        none none "2025-01-01").type = "fancy" ∧
    (extract_metadata ⟨"x.txt", none, some "fancy", none, none, none, true, none⟩
        none none "2025-01-01").type ∉ valid_types := by decide

/-- C2 (amended): only the classifier layer normalizes `source`/`type` into
their enumerated sets; sidecar and override values pass through unvalidated.
Hence the resolved `source`/`type` is in-set whenever it comes from the
filename or classifier layers, i.e. whenever neither the sidecar mapping nor
a truthy caller override supplies that field (every classifier outcome fed
to the resolver being a validated `_parse_llm_metadata_response` result). -/
theorem c2_enum_normalization_amended (a : ExtractArgs) (yaml : Option SidecarMap)
    (llm : Option LlmMeta) (today : String)
    (hllm : llm = none ∨ ∃ p : ParsedDoc, llm = some (parse_llm_metadata_response p)) :
    (optStrTruthy a.source_override = false →
      (yaml = none ∨ ∃ m, yaml = some m ∧ m.source? = none) →
      (extract_metadata a yaml llm today).source ∈ valid_sources) ∧
    (optStrTruthy a.type_override = false →
      (yaml = none ∨ ∃ m, yaml = some m ∧ m.type? = none) →
      (extract_metadata a yaml llm today).type ∈ valid_types) := by
  constructor
  · intro hf hy
    rcases hy with rfl | ⟨m, rfl, hs⟩
    · rw [extract_source_eq, orBaseStr_falsy hf]
      simp only []
      split
      · rcases hllm with rfl | ⟨p, rfl⟩
        · exact (infer_mem_valid a.filename).1
        · exact (parse_llm_mem_valid p).1
      · exact (infer_mem_valid a.filename).1
    · rw [extract_source_eq, orBaseStr_falsy hf]
      simp only [hs, Option.getD_none]
      exact (infer_mem_valid a.filename).1
  · intro hf hy
    rcases hy with rfl | ⟨m, rfl, hs⟩
    · rw [extract_type_eq, orBaseStr_falsy hf]
      simp only []
      split
      · rcases hllm with rfl | ⟨p, rfl⟩
        · exact (infer_mem_valid a.filename).2
        · exact (parse_llm_mem_valid p).2
      · exact (infer_mem_valid a.filename).2
    · rw [extract_type_eq, orBaseStr_falsy hf]
      simp only [hs, Option.getD_none]
      exact (infer_mem_valid a.filename).2

/-- C2 witness: in-set `source` with a sidecar that leaves `source` unset,
and in-set `type` with a validated classifier outcome carrying junk input. -/
theorem c2_enum_normalization_amended_witness :
    (extract_metadata ⟨"x.txt", none, none, none, none, none, true, none⟩
        (some ⟨none, some "weird", none, none, none⟩) none "2025-01-01").source ∈
      valid_sources ∧
    (extract_metadata ⟨"x.txt", none, none, none, none, some "body", true, none⟩
        none (some (parse_llm_metadata_response ⟨some "junk", some "junk", none, none⟩))
        "2025-01-01").type ∈ valid_types :=
  ⟨(c2_enum_normalization_amended _ _ _ _ (Or.inl rfl)).1 rfl
      (Or.inr ⟨_, rfl, rfl⟩),
   (c2_enum_normalization_amended _ _ _ _
        (Or.inr ⟨⟨some "junk", some "junk", none, none⟩, rfl⟩)).2 rfl (Or.inl rfl)⟩

/-- C3 counterexample: when the classifier's reply fails to parse, the
classifier result is not an empty map — it is the defaults-filled map, and
it overwrites the filename-inferred `source` (here `meeting` becomes
`unknown`), so the layer-1 values do not persist. -/
theorem c3_parse_failure_counterexample :
    infer_metadata_from_filename "meeting_x.txt" = ("meeting", "minutes") ∧
    (extract_metadata ⟨"meeting_x.txt", none, none, none, none, some "body", true, none⟩
        none (some (parse_llm_metadata_response ParsedDoc.empty)) "2025-01-01").source =
      "unknown" ∧
    (extract_metadata ⟨"meeting_x.txt", none, none, none, none, some "body", true, none⟩
        none (some (parse_llm_metadata_response ParsedDoc.empty)) "2025-01-01").source ≠
      (infer_metadata_from_filename "meeting_x.txt").1 := by decide

/-- C3 (amended): on a reply that fails to parse, the classifier returns the
defaults-filled map (source `unknown`, type `general`, topics `[]`, summary
empty), which overwrites the filename-inferred values; the filename-layer
values persist only when the classifier call raises (modelled as `none`), in
which case the layer contributes nothing. -/
theorem c3_parse_failure_amended :
    parse_llm_metadata_response ParsedDoc.empty = ⟨"unknown", "general", [], ""⟩ ∧
    (∀ (fn : String) (content : Option String) (u : Bool) (today : String),
      extract_metadata ⟨fn, none, none, none, none, content, u, none⟩ none none today =
        ⟨(infer_metadata_from_filename fn).1, (infer_metadata_from_filename fn).2,
         today, baseFilename fn, [], ""⟩) := by
  refine ⟨by decide, fun fn content u today => ?_⟩
  by_cases hg : optStrTruthy content = true <;>
    by_cases hu : u = true <;>
    simp [extract_metadata, orBaseStr, orBaseList, hg, hu]

/-- C4: the classifier layer is consulted only when no sidecar mapping was
loaded, content was supplied (truthy) and `use_llm` holds; with a sidecar
present — or with falsy content or `use_llm = False` — the classifier
outcome cannot influence the resolved record at all. -/
theorem c4_classifier_gating (a : ExtractArgs) (today : String) :
    (∀ (m : SidecarMap) (llm1 llm2 : Option LlmMeta),
      extract_metadata a (some m) llm1 today = extract_metadata a (some m) llm2 today) ∧
    ((optStrTruthy a.content = false ∨ a.use_llm = false) →
      ∀ llm1 llm2 : Option LlmMeta,
        extract_metadata a none llm1 today = extract_metadata a none llm2 today) := by
  constructor
  · intro m llm1 llm2
    rcases llm1 with _ | m1 <;> rcases llm2 with _ | m2 <;> simp [extract_metadata]
  · intro h llm1 llm2
    rcases h with h | h <;>
      rcases llm1 with _ | m1 <;> rcases llm2 with _ | m2 <;>
      simp [extract_metadata, h]

/-- C4 witness: with a sidecar present (and content supplied and `use_llm`
on), a classifier outcome changes nothing; likewise with no content. -/
theorem c4_classifier_gating_witness :
    extract_metadata ⟨"a.txt", none, none, none, none, some "text", true, none⟩
        (some ⟨some "memo", none, none, none, none⟩)
        (some ⟨"meeting", "minutes", ["x"], "s"⟩) "2025-01-01" =
      extract_metadata ⟨"a.txt", none, none, none, none, some "text", true, none⟩
        (some ⟨some "memo", none, none, none, none⟩) none "2025-01-01" ∧
    extract_metadata ⟨"a.txt", none, none, none, none, none, true, none⟩ none
        (some ⟨"meeting", "minutes", ["x"], "s"⟩) "2025-01-01" =
      extract_metadata ⟨"a.txt", none, none, none, none, none, true, none⟩ none none
        "2025-01-01" :=
  ⟨(c4_classifier_gating ⟨"a.txt", none, none, none, none, some "text", true, none⟩
      "2025-01-01").1 _ _ _,
   (c4_classifier_gating ⟨"a.txt", none, none, none, none, none, true, none⟩
      "2025-01-01").2 (Or.inl rfl) _ _⟩

/-- C7: the resolved `date` always has a value: a truthy caller override
wins; otherwise a sidecar `date` key wins; otherwise it is the
resolution-time today. -/
theorem c7_date_always_set (a : ExtractArgs) (yaml : Option SidecarMap)
    (llm : Option LlmMeta) (today : String) :
    (∀ d, a.date_override = some d → d ≠ "" →
      (extract_metadata a yaml llm today).date = d) ∧
    (optStrTruthy a.date_override = false →
      ∀ m sd, yaml = some m → m.date? = some sd →
        (extract_metadata a yaml llm today).date = sd) ∧
    (optStrTruthy a.date_override = false →
      (yaml = none ∨ ∃ m, yaml = some m ∧ m.date? = none) →
        (extract_metadata a yaml llm today).date = today) := by
  refine ⟨fun d hov hne => ?_, fun hf m sd hy hd => ?_, fun hf hc => ?_⟩
  · rw [extract_date_eq, hov]
    simp [orBaseStr, hne]
  · subst hy
    rw [extract_date_eq, orBaseStr_falsy hf]
    simp [hd]
  · rcases hc with rfl | ⟨m, rfl, hd⟩
    · rw [extract_date_eq, orBaseStr_falsy hf]
    · rw [extract_date_eq, orBaseStr_falsy hf]
      simp [hd]

/-- C7 witness: the three date fallbacks at concrete inputs. -/
theorem c7_date_always_set_witness :
    (extract_metadata ⟨"n.txt", none, none, none, some "2030-01-02", none, true, none⟩
        (some ⟨none, none, none, some "2025-05-05", none⟩) none "2025-06-01").date =
      "2030-01-02" ∧
    (extract_metadata ⟨"n.txt", none, none, none, none, none, true, none⟩
        (some ⟨none, none, none, some "2025-05-05", none⟩) none "2025-06-01").date =
      "2025-05-05" ∧
    (extract_metadata ⟨"n.txt", none, none, none, none, none, true, none⟩ none none
        "2025-06-01").date = "2025-06-01" :=
  ⟨(c7_date_always_set ⟨"n.txt", none, none, none, some "2030-01-02", none, true, none⟩
      (some ⟨none, none, none, some "2025-05-05", none⟩) none "2025-06-01").1 _ rfl
      (by decide),
   (c7_date_always_set ⟨"n.txt", none, none, none, none, none, true, none⟩
      (some ⟨none, none, none, some "2025-05-05", none⟩) none "2025-06-01").2.1 rfl _ _
      rfl rfl,
   (c7_date_always_set ⟨"n.txt", none, none, none, none, none, true, none⟩ none none
      "2025-06-01").2.2 rfl (Or.inl rfl)⟩

/-- C10: a sidecar `topics` value that is already a list is adopted
verbatim (absent a truthy topics override): entries are not trimmed and
empty or whitespace-only entries are not dropped. -/
theorem c10_sidecar_list_topics_verbatim (a : ExtractArgs) (m : SidecarMap)
    (ts : List String) (llm : Option LlmMeta) (today : String)
    (hts : m.topics? = some (TopicsVal.list ts))
    (hov : a.topics = none ∨ a.topics = some []) :
    (extract_metadata a (some m) llm today).topics = ts := by
  rw [extract_topics_eq]
  rcases hov with h | h <;> simp [h, orBaseList, hts]

/-- C10 witness: a sidecar list with an empty and an untrimmed entry is
kept exactly as written. -/
theorem c10_sidecar_list_topics_verbatim_witness :
    (extract_metadata ⟨"a.txt", none, none, none, none, none, true, none⟩
        (some ⟨none, none, some (TopicsVal.list ["", "  x  "]), none, none⟩) none
        "2025-01-01").topics = ["", "  x  "] :=
  c10_sidecar_list_topics_verbatim _ _ _ _ _ rfl (Or.inl rfl)
